import Mathlib

/-!
Verification of the jsonforms-parser repository: a shallow embedding of the
Go sources (`parser.go`, `types.go`, `visitor.go`) and proofs that the
documented behaviour holds of it.

The Go code operates on values decoded by `encoding/json.Unmarshal` into
`map[string]any` / `[]any` / primitives.  The embedding models such decoded
values by the inductive `JSON` below, decoded objects by association lists
with unique keys, and Go's comma-ok type assertions (`data[k].(string)` etc.)
by the `get*Field` helpers.  Fallible Go functions returning `(T, error)`
become `Except ParseError T`.
-/

set_option maxHeartbeats 1000000

namespace Jsonforms

/-- Generic decoded JSON value: the model of the Go `any` values produced by
`encoding/json.Unmarshal` (null, bool, number, string, ordered array, or
object). Objects are association lists with string keys, unique after
decoding. -/
inductive JSON where
  | null : JSON
  | bool (b : Bool) : JSON
  | num (n : Int) : JSON
  | str (s : String) : JSON
  | arr (elems : List JSON) : JSON
  | obj (fields : List (String × JSON)) : JSON

/-- A decoded JSON object: the model of Go `map[string]any`. -/
abbrev JSONObject := List (String × JSON)

/-- Association-list lookup, modelling Go map indexing `data[key]` on a
decoded JSON object (a missing key yields Go `nil`, here `none`). -/
def lookupField : JSONObject → String → Option JSON
  | [], _ => none
  | (k, v) :: rest, key => if k = key then some v else lookupField rest key

/-- Go `data[key].(string)` with comma-ok: `some s` iff the key is present
with a string value. -/
def getStrField (data : JSONObject) (key : String) : Option String :=
  match lookupField data key with
  | some (.str s) => some s
  | _ => none

/-- Go `data[key].(map[string]any)` with comma-ok. -/
def getObjField (data : JSONObject) (key : String) : Option JSONObject :=
  match lookupField data key with
  | some (.obj o) => some o
  | _ => none

/-- Go `data[key].([]any)` with comma-ok. -/
def getArrField (data : JSONObject) (key : String) : Option (List JSON) :=
  match lookupField data key with
  | some (.arr l) => some l
  | _ => none

/-- Go `data[key].(bool)` with comma-ok. -/
def getBoolField (data : JSONObject) (key : String) : Option Bool :=
  match lookupField data key with
  | some (.bool b) => some b
  | _ => none

/-- Whether a decoded JSON value is an object (a Go `map[string]any`). -/
def JSON.isObj : JSON → Bool
  | .obj _ => true
  | _ => false

/-- Whether a decoded JSON value is the JSON null. -/
def JSON.isNull : JSON → Bool
  | .null => true
  | _ => false

/-- Whether a decoded JSON value is a string. -/
def JSON.isStr : JSON → Bool
  | .str _ => true
  | _ => false

/-- Errors of the Go `encoding/json` package relevant here:
`malformedJSON` models `json.SyntaxError` (the text is not valid JSON) and
`unmarshalTypeErr` models `json.UnmarshalTypeError` (valid JSON that cannot
be stored in the target Go type). -/
inductive GoJSONError where
  | malformedJSON : GoJSONError
  | unmarshalTypeErr : GoJSONError
deriving DecidableEq, Repr

/-- An input text (`[]byte`) for one of the two documents, abstracted to what
the parser observes of it: empty (`len == 0`), non-empty but not valid JSON,
or non-empty valid JSON decoding to a given value. -/
inductive JSONText where
  | empty : JSONText
  | invalid : JSONText
  | valid (v : JSON) : JSONText

/-- Model of `json.Unmarshal(data, &v)` for `var v any`: syntactically
invalid (or empty) text is a `json.SyntaxError`; the JSON null leaves the
`any` value `nil` (modelled `none`), per the documented null behaviour of
`encoding/json`. -/
def goUnmarshalAny : JSONText → Except GoJSONError (Option JSON)
  | .empty => .error .malformedJSON
  | .invalid => .error .malformedJSON
  | .valid .null => .ok none
  | .valid v => .ok (some v)

/-- Model of `json.Unmarshal(data, &raw)` for `var raw map[string]any`:
invalid text is a `json.SyntaxError`; a JSON object decodes to the map; the
JSON null sets the map to `nil` (modelled as the empty object) with NO error,
per the documented null behaviour of `encoding/json`; any other top-level
value is a `json.UnmarshalTypeError`. -/
def goUnmarshalMap : JSONText → Except GoJSONError JSONObject
  | .empty => .error .malformedJSON
  | .invalid => .error .malformedJSON
  | .valid (.obj kvs) => .ok kvs
  | .valid .null => .ok []
  | .valid _ => .error .unmarshalTypeErr

/-- The error values of the parser.  Leaf constructors are the static
`errors.New` values of `parser.go`; `elementIndexed` / `conditionIndexed`
model the `fmt.Errorf("element %d: %w", i, err)` / `"condition %d: %w"`
wrappers; `failedRule` / `failedCondition` / `invalidJSON` /
`failedUISchema` / `failedDataSchema` model the corresponding
`fmt.Errorf("...: %w", err)` wrapping sites. -/
inductive ParseError where
  | missingTypeField : ParseError
  | controlMissingScope : ParseError
  | groupMissingLabel : ParseError
  | categorizationMissingElements : ParseError
  | elementNotObject : ParseError
  | categoryMissingLabel : ParseError
  | labelMissingText : ParseError
  | missingElements : ParseError
  | ruleMissingEffect : ParseError
  | ruleMissingCondition : ParseError
  | unknownConditionType (t : String) : ParseError
  | schemaConditionMissingScope : ParseError
  | schemaConditionMissingSchema : ParseError
  | leafConditionMissingScope : ParseError
  | leafConditionMissingValue : ParseError
  | andConditionMissingConditions : ParseError
  | orConditionMissingConditions : ParseError
  | elementIndexed (i : Nat) (err : ParseError) : ParseError
  | conditionIndexed (i : Nat) (err : ParseError) : ParseError
  | failedRule (err : ParseError) : ParseError
  | failedCondition (err : ParseError) : ParseError
  | invalidJSON (err : GoJSONError) : ParseError
  | failedUISchema (err : ParseError) : ParseError
  | failedDataSchema (err : GoJSONError) : ParseError
deriving DecidableEq, Repr

/-- The closed condition variant set of `types.go`.  Each variant carries its
`Type` field as the Go structs do (`SchemaBasedCondition.Type` defaults to
the empty string when the source omitted it). -/
inductive Condition where
  | schemaBased (type : String) (scope : String) (schema : JSON)
      (failWhenUndefined : Option Bool) : Condition
  | leaf (type : String) (scope : String) (expectedValue : JSON) : Condition
  | and (type : String) (conditions : List Condition) : Condition
  | or (type : String) (conditions : List Condition) : Condition

/-- `RuleEffect` is a plain string type in `types.go`. -/
abbrev RuleEffect := String

/-- The four named effects of `types.go` (never used as a membership check by
the parser). -/
def RuleEffectHIDE : RuleEffect := "HIDE"

/-- See `RuleEffectHIDE`. -/
def RuleEffectSHOW : RuleEffect := "SHOW"

/-- See `RuleEffectHIDE`. -/
def RuleEffectENABLE : RuleEffect := "ENABLE"

/-- See `RuleEffectHIDE`. -/
def RuleEffectDISABLE : RuleEffect := "DISABLE"

/-- `Rule` of `types.go`: an effect string plus one condition. -/
structure Rule where
  effect : RuleEffect
  condition : Condition

/-- `BaseUISchemaElement` of `types.go`: the fields shared by every node.
Go nil pointers / nil maps become `none`. -/
structure BaseUISchemaElement where
  type : String
  rule : Option Rule
  options : Option JSONObject
  i18n : Option String

/-- The closed node variant set of `types.go` as one inductive: `control`,
`verticalLayout`, `horizontalLayout`, `group`, `categorization`, `category`,
`label`, `custom` mirror the eight structs embedding
`BaseUISchemaElement`.  `categorization`'s elements are kept as plain nodes;
the parser only ever stores Category/Categorization values there
(`CategoryElement` in Go). -/
inductive UISchemaElement where
  | control (base : BaseUISchemaElement) (scope : String)
      (label : Option JSON) : UISchemaElement
  | verticalLayout (base : BaseUISchemaElement)
      (elements : List UISchemaElement) : UISchemaElement
  | horizontalLayout (base : BaseUISchemaElement)
      (elements : List UISchemaElement) : UISchemaElement
  | group (base : BaseUISchemaElement) (label : String)
      (elements : List UISchemaElement) : UISchemaElement
  | categorization (base : BaseUISchemaElement) (label : Option String)
      (elements : List UISchemaElement) : UISchemaElement
  | category (base : BaseUISchemaElement) (label : String)
      (elements : List UISchemaElement) : UISchemaElement
  | label (base : BaseUISchemaElement) (text : String) : UISchemaElement
  | custom (base : BaseUISchemaElement) (rawData : JSONObject)
      (elements : List UISchemaElement) : UISchemaElement

/-- The embedded `BaseUISchemaElement` of a node. -/
def UISchemaElement.baseOf : UISchemaElement → BaseUISchemaElement
  | .control b _ _ => b
  | .verticalLayout b _ => b
  | .horizontalLayout b _ => b
  | .group b _ _ => b
  | .categorization b _ _ => b
  | .category b _ _ => b
  | .label b _ => b
  | .custom b _ _ => b

/-- `GetType` of `types.go`: every node reports its base `Type` string. -/
def UISchemaElement.getType (e : UISchemaElement) : String := e.baseOf.type

/-- The Go type assertion `elem.(CategoryElement)`: it succeeds exactly for
`*Category` and `*Categorization`, the two types with an `IsCategoryElement`
marker method in `types.go`. -/
def isCategoryElement : UISchemaElement → Bool
  | .category _ _ _ => true
  | .categorization _ _ _ => true
  | _ => false

/-- `AST` of `types.go`: the parsed UI-schema tree plus the opaque decoded
data schema (`nil`, i.e. `none`, when the schema text was absent). -/
structure AST where
  uischema : UISchemaElement
  schema : Option JSON

/-- Variant test used to state the condition-dispatch claims. -/
def Condition.isLeaf : Condition → Bool
  | .leaf _ _ _ => true
  | _ => false

/-- Variant test used to state the condition-dispatch claims. -/
def Condition.isAnd : Condition → Bool
  | .and _ _ => true
  | _ => false

/-- Variant test used to state the condition-dispatch claims. -/
def Condition.isOr : Condition → Bool
  | .or _ _ => true
  | _ => false

/-- Variant test used to state the condition-dispatch claims. -/
def Condition.isSchemaBased : Condition → Bool
  | .schemaBased _ _ _ _ => true
  | _ => false

theorem lookupField_sizeOf {kvs : JSONObject} {key : String} {v : JSON}
    (h : lookupField kvs key = some v) : sizeOf v < sizeOf kvs := by
  induction kvs with
  | nil => simp [lookupField] at h
  | cons kv rest ih =>
    obtain ⟨k, w⟩ := kv
    simp only [lookupField] at h
    split at h
    · cases h
      simp
      omega
    · have := ih h
      simp
      omega

theorem getArrField_sizeOf {data : JSONObject} {key : String} {l : List JSON}
    (h : getArrField data key = some l) : sizeOf l < sizeOf data := by
  unfold getArrField at h
  split at h
  next v heq =>
    cases h
    have h1 := lookupField_sizeOf heq
    simp at h1
    omega
  next => cases h

/-- `parseSchemaBasedCondition` of `parser.go`: requires a string `scope` and
a present `schema` key (any value); `type` and `failWhenUndefined` are
optional. -/
def parseSchemaBasedCondition (data : JSONObject) :
    Except ParseError Condition :=
  match getStrField data "scope" with
  | none => .error .schemaConditionMissingScope
  | some scope =>
    match lookupField data "schema" with
    | none => .error .schemaConditionMissingSchema
    | some schema =>
      .ok (.schemaBased ((getStrField data "type").getD "") scope schema
        (getBoolField data "failWhenUndefined"))

/-- `parseLeafCondition` of `parser.go`: requires a string `scope` and a
present `expectedValue` key (any value). -/
def parseLeafCondition (data : JSONObject) : Except ParseError Condition :=
  match getStrField data "scope" with
  | none => .error .leafConditionMissingScope
  | some scope =>
    match lookupField data "expectedValue" with
    | none => .error .leafConditionMissingValue
    | some expectedValue => .ok (.leaf "LEAF" scope expectedValue)

mutual

/-- `parseCondition` of `parser.go`: dispatch on the optional `type`
discriminator (`conditionType, _ := data["type"].(string)`, so a missing or
non-string `type` reads as `""`). -/
def parseCondition (data : JSONObject) : Except ParseError Condition :=
  let conditionType := (getStrField data "type").getD ""
  if conditionType = "LEAF" then parseLeafCondition data
  else if conditionType = "AND" then parseAndCondition data
  else if conditionType = "OR" then parseOrCondition data
  else if conditionType = "SCHEMA_BASED" ∨ conditionType = "" then
    parseSchemaBasedCondition data
  else .error (.unknownConditionType conditionType)
termination_by (sizeOf data, 2)

/-- `parseAndCondition` of `parser.go`: requires a `conditions` array, each
entry an object parsed recursively; its inline `for i, condData` loop is
`parseConditionList`. -/
def parseAndCondition (data : JSONObject) : Except ParseError Condition :=
  match h : getArrField data "conditions" with
  | some conditionsData =>
    (match parseConditionList conditionsData 0 with
    | .error e => .error e
    | .ok conditions => .ok (.and "AND" conditions))
  | none => .error .andConditionMissingConditions
termination_by (sizeOf data, 1)
decreasing_by
exact Prod.Lex.left _ _ (getArrField_sizeOf h)

/-- `parseOrCondition` of `parser.go`: identical to `parseAndCondition`
except for the error value and the variant built. -/
def parseOrCondition (data : JSONObject) : Except ParseError Condition :=
  match h : getArrField data "conditions" with
  | some conditionsData =>
    (match parseConditionList conditionsData 0 with
    | .error e => .error e
    | .ok conditions => .ok (.or "OR" conditions))
  | none => .error .orConditionMissingConditions
termination_by (sizeOf data, 1)
decreasing_by
exact Prod.Lex.left _ _ (getArrField_sizeOf h)

/-- The shared body of the `for i, condData := range conditionsData` loops of
`parseAndCondition` / `parseOrCondition` (they are textually identical in the
source): each entry must be an object and parse, else the whole loop aborts
with the entry's index; `i` is the index of the head of `items`. -/
def parseConditionList (items : List JSON) (i : Nat) :
    Except ParseError (List Condition) :=
  match items with
  | [] => .ok []
  | item :: rest =>
    match item with
    | .obj condMap =>
      (match parseCondition condMap with
      | .error e => .error (.conditionIndexed i e)
      | .ok c =>
        match parseConditionList rest (i + 1) with
        | .error e => .error e
        | .ok cs => .ok (c :: cs))
    | _ => .error (.conditionIndexed i .elementNotObject)
termination_by (sizeOf items, 0)

end

/-- `parseRule` of `parser.go`: requires a string `effect` (stored verbatim,
no membership check) and an object `condition`; condition errors are wrapped
"failed to parse condition". -/
def parseRule (data : JSONObject) : Except ParseError Rule :=
  match getStrField data "effect" with
  | none => .error .ruleMissingEffect
  | some effect =>
    match getObjField data "condition" with
    | none => .error .ruleMissingCondition
    | some conditionData =>
      match parseCondition conditionData with
      | .error e => .error (.failedCondition e)
      | .ok condition => .ok ⟨effect, condition⟩

/-- `parseBaseElement` of `parser.go`.  The source's bare
`data["type"].(string)` assertion is guarded by the caller's discriminator
check; the unreachable non-string case reads as `""` here.  A
present-but-non-object `rule` or `options`, or a non-string `i18n`, fails
its comma-ok assertion and is skipped exactly like an absent key. -/
def parseBaseElement (data : JSONObject) :
    Except ParseError BaseUISchemaElement :=
  match getObjField data "rule" with
  | some ruleData =>
    (match parseRule ruleData with
    | .error e => .error (.failedRule e)
    | .ok rule => .ok ⟨(getStrField data "type").getD "", some rule,
        getObjField data "options", getStrField data "i18n"⟩)
  | none => .ok ⟨(getStrField data "type").getD "", none,
      getObjField data "options", getStrField data "i18n"⟩

/-- `parseControl` of `parser.go`: requires a string `scope`; `label` is
kept verbatim when the key is present (any value). -/
def parseControl (data : JSONObject) (base : BaseUISchemaElement) :
    Except ParseError UISchemaElement :=
  match getStrField data "scope" with
  | none => .error .controlMissingScope
  | some scope => .ok (.control base scope (lookupField data "label"))

/-- `parseLabel` of `parser.go`: requires a string `text`. -/
def parseLabel (data : JSONObject) (base : BaseUISchemaElement) :
    Except ParseError UISchemaElement :=
  match getStrField data "text" with
  | none => .error .labelMissingText
  | some text => .ok (.label base text)

mutual

/-- `parseUISchemaElement` of `parser.go`: checks the `type` discriminator
first, then parses the shared base fields, then dispatches on the
discriminator; an unrecognized discriminator falls back to
`parseCustomElement`, which cannot fail. -/
def parseUISchemaElement (data : JSONObject) :
    Except ParseError UISchemaElement :=
  match getStrField data "type" with
  | none => .error .missingTypeField
  | some elementType =>
    match parseBaseElement data with
    | .error e => .error e
    | .ok base =>
      if elementType = "Control" then parseControl data base
      else if elementType = "VerticalLayout" then parseVerticalLayout data base
      else if elementType = "HorizontalLayout" then
        parseHorizontalLayout data base
      else if elementType = "Group" then parseGroup data base
      else if elementType = "Categorization" then parseCategorization data base
      else if elementType = "Category" then parseCategory data base
      else if elementType = "Label" then parseLabel data base
      else .ok (parseCustomElement data base)
termination_by (sizeOf data, 3)

/-- `parseVerticalLayout` of `parser.go`. -/
def parseVerticalLayout (data : JSONObject) (base : BaseUISchemaElement) :
    Except ParseError UISchemaElement :=
  match parseElementsArray data with
  | .error e => .error e
  | .ok elements => .ok (.verticalLayout base elements)
termination_by (sizeOf data, 2)

/-- `parseHorizontalLayout` of `parser.go`. -/
def parseHorizontalLayout (data : JSONObject) (base : BaseUISchemaElement) :
    Except ParseError UISchemaElement :=
  match parseElementsArray data with
  | .error e => .error e
  | .ok elements => .ok (.horizontalLayout base elements)
termination_by (sizeOf data, 2)

/-- `parseGroup` of `parser.go`: requires a string `label` and an `elements`
array. -/
def parseGroup (data : JSONObject) (base : BaseUISchemaElement) :
    Except ParseError UISchemaElement :=
  match getStrField data "label" with
  | none => .error .groupMissingLabel
  | some label =>
    match parseElementsArray data with
    | .error e => .error e
    | .ok elements => .ok (.group base label elements)
termination_by (sizeOf data, 2)

/-- `parseCategorization` of `parser.go`: requires an `elements` array; its
inline loop (`parseCategorizationList`) parses every entry and keeps only
those that satisfy the `CategoryElement` assertion; the optional `label` is
read afterwards. -/
def parseCategorization (data : JSONObject) (base : BaseUISchemaElement) :
    Except ParseError UISchemaElement :=
  match h : getArrField data "elements" with
  | some elementsData =>
    (match parseCategorizationList elementsData 0 with
    | .error e => .error e
    | .ok elements =>
      .ok (.categorization base (getStrField data "label") elements))
  | none => .error .categorizationMissingElements
termination_by (sizeOf data, 2)
decreasing_by
exact Prod.Lex.left _ _ (getArrField_sizeOf h)

/-- `parseCategory` of `parser.go`: requires a string `label` and an
`elements` array. -/
def parseCategory (data : JSONObject) (base : BaseUISchemaElement) :
    Except ParseError UISchemaElement :=
  match getStrField data "label" with
  | none => .error .categoryMissingLabel
  | some label =>
    match parseElementsArray data with
    | .error e => .error e
    | .ok elements => .ok (.category base label elements)
termination_by (sizeOf data, 2)

/-- `parseCustomElement` of `parser.go`: always returns a value carrying the
complete raw object; children are parsed best-effort when an `elements` key
is present, and a child-parse failure leaves the element with no children
(the Go `Elements` slice stays nil, modelled as `[]`). -/
def parseCustomElement (data : JSONObject) (base : BaseUISchemaElement) :
    UISchemaElement :=
  if (lookupField data "elements").isSome then
    match parseElementsArray data with
    | .ok elements => .custom base data elements
    | .error _ => .custom base data []
  else .custom base data []
termination_by (sizeOf data, 2)

/-- `parseElementsArray` of `parser.go`: requires an `elements` array; its
inline `for i, elemData` loop is `parseElementsList`. -/
def parseElementsArray (data : JSONObject) :
    Except ParseError (List UISchemaElement) :=
  match h : getArrField data "elements" with
  | some elementsData => parseElementsList elementsData 0
  | none => .error .missingElements
termination_by (sizeOf data, 1)
decreasing_by
exact Prod.Lex.left _ _ (getArrField_sizeOf h)

/-- The `for i, elemData := range elementsData` loop of
`parseElementsArray`: each entry must be an object and classify, else the
loop aborts with the entry's index; `i` is the index of the head of
`items`. -/
def parseElementsList (items : List JSON) (i : Nat) :
    Except ParseError (List UISchemaElement) :=
  match items with
  | [] => .ok []
  | item :: rest =>
    match item with
    | .obj elemMap =>
      (match parseUISchemaElement elemMap with
      | .error e => .error (.elementIndexed i e)
      | .ok elem =>
        match parseElementsList rest (i + 1) with
        | .error e => .error e
        | .ok elems => .ok (elem :: elems))
    | _ => .error (.elementIndexed i .elementNotObject)
termination_by (sizeOf items, 0)

/-- The `for i, elemData := range elementsData` loop of
`parseCategorization`: like `parseElementsList`, but a successfully parsed
entry is retained only if it passes the `CategoryElement` assertion
(`continue` otherwise). -/
def parseCategorizationList (items : List JSON) (i : Nat) :
    Except ParseError (List UISchemaElement) :=
  match items with
  | [] => .ok []
  | item :: rest =>
    match item with
    | .obj elemMap =>
      (match parseUISchemaElement elemMap with
      | .error e => .error (.elementIndexed i e)
      | .ok elem =>
        match parseCategorizationList rest (i + 1) with
        | .error e => .error e
        | .ok elems =>
          .ok (if isCategoryElement elem then elem :: elems else elems))
    | _ => .error (.elementIndexed i .elementNotObject)
termination_by (sizeOf items, 0)

end

/-- `parseUISchema` of `parser.go`: unmarshals the text into a
`map[string]any` (any `Unmarshal` error is wrapped "invalid JSON") and
classifies the root element. -/
def parseUISchema (data : JSONText) : Except ParseError UISchemaElement :=
  match goUnmarshalMap data with
  | .error e => .error (.invalidJSON e)
  | .ok raw => parseUISchemaElement raw

/-- `Parse` of `parser.go`: parses the UI schema (errors wrapped "failed to
parse UI schema"); then, only when the data-schema text is non-empty
(`len(schemaJSON) > 0`), unmarshals it opaquely (errors wrapped "failed to
parse data schema"). -/
def Parse (uiSchemaJSON schemaJSON : JSONText) : Except ParseError AST :=
  match parseUISchema uiSchemaJSON with
  | .error e => .error (.failedUISchema e)
  | .ok uiSchema =>
    match schemaJSON with
    | .empty => .ok ⟨uiSchema, none⟩
    | t =>
      match goUnmarshalAny t with
      | .error e => .error (.failedDataSchema e)
      | .ok schema => .ok ⟨uiSchema, schema⟩

/-- The `Visitor` interface of `visitor.go` as a record of per-variant
callbacks; each callback receives the visited node and may fail. -/
structure Visitor (ε : Type) where
  visitControl : UISchemaElement → Except ε Unit
  visitVerticalLayout : UISchemaElement → Except ε Unit
  visitHorizontalLayout : UISchemaElement → Except ε Unit
  visitGroup : UISchemaElement → Except ε Unit
  visitCategorization : UISchemaElement → Except ε Unit
  visitCategory : UISchemaElement → Except ε Unit
  visitLabel : UISchemaElement → Except ε Unit
  visitCustomElement : UISchemaElement → Except ε Unit

mutual

/-- `Walk` of `visitor.go` on a non-nil element: dispatch to the variant's
own callback; leaf variants (`Control`, `Label`) return the callback's
result directly, container variants walk their children only after the
callback succeeds (`walkList` is the `for _, child := range e.Elements`
loop). -/
def walkElement {ε : Type} (visitor : Visitor ε) (e : UISchemaElement) :
    Except ε Unit :=
  match e with
  | .control _ _ _ => visitor.visitControl e
  | .verticalLayout _ elements =>
    (match visitor.visitVerticalLayout e with
    | .error err => .error err
    | .ok _ => walkList visitor elements)
  | .horizontalLayout _ elements =>
    (match visitor.visitHorizontalLayout e with
    | .error err => .error err
    | .ok _ => walkList visitor elements)
  | .group _ _ elements =>
    (match visitor.visitGroup e with
    | .error err => .error err
    | .ok _ => walkList visitor elements)
  | .categorization _ _ elements =>
    (match visitor.visitCategorization e with
    | .error err => .error err
    | .ok _ => walkList visitor elements)
  | .category _ _ elements =>
    (match visitor.visitCategory e with
    | .error err => .error err
    | .ok _ => walkList visitor elements)
  | .label _ _ => visitor.visitLabel e
  | .custom _ _ elements =>
    (match visitor.visitCustomElement e with
    | .error err => .error err
    | .ok _ => walkList visitor elements)
termination_by sizeOf e

/-- The `for _, child := range e.Elements { if err := Walk(child, visitor);
... }` loops of `Walk`: children in order, stopping at the first failing
subtree.  (Children produced by the parser are never nil, so the nil check
at the head of `Walk` is a no-op on them.) -/
def walkList {ε : Type} (visitor : Visitor ε) (l : List UISchemaElement) :
    Except ε Unit :=
  match l with
  | [] => .ok ()
  | child :: rest =>
    match walkElement visitor child with
    | .error err => .error err
    | .ok _ => walkList visitor rest
termination_by sizeOf l

end

/-- `Walk` of `visitor.go`: a nil root (`none`) is a no-op success, anything
else is walked. -/
def Walk {ε : Type} (element : Option UISchemaElement) (visitor : Visitor ε) :
    Except ε Unit :=
  match element with
  | none => .ok ()
  | some e => walkElement visitor e

/-- `BaseVisitor` of `visitor.go`: the all-no-op callback record. -/
def BaseVisitor (ε : Type) : Visitor ε :=
  ⟨fun _ => .ok (), fun _ => .ok (), fun _ => .ok (), fun _ => .ok (),
   fun _ => .ok (), fun _ => .ok (), fun _ => .ok (), fun _ => .ok ()⟩

/-- The callback `Walk` dispatches to first for a given variant (a reading
of the `switch e := element.(type)` head of each case). -/
def ownCallback {ε : Type} (visitor : Visitor ε) (e : UISchemaElement) :
    Except ε Unit :=
  match e with
  | .control _ _ _ => visitor.visitControl e
  | .verticalLayout _ _ => visitor.visitVerticalLayout e
  | .horizontalLayout _ _ => visitor.visitHorizontalLayout e
  | .group _ _ _ => visitor.visitGroup e
  | .categorization _ _ _ => visitor.visitCategorization e
  | .category _ _ _ => visitor.visitCategory e
  | .label _ _ => visitor.visitLabel e
  | .custom _ _ _ => visitor.visitCustomElement e

/-- The child sequence a variant carries (empty for the leaf variants
`control` and `label`). -/
def childrenOf : UISchemaElement → List UISchemaElement
  | .control _ _ _ => []
  | .verticalLayout _ elements => elements
  | .horizontalLayout _ elements => elements
  | .group _ _ elements => elements
  | .categorization _ _ elements => elements
  | .category _ _ elements => elements
  | .label _ _ => []
  | .custom _ _ elements => elements

/-- The raw mapping a `custom` node retains (its `RawData` field; the other
variants carry none). -/
def UISchemaElement.rawDataOf : UISchemaElement → JSONObject
  | .custom _ raw _ => raw
  | _ => []

/-- Whether an `Except` computation succeeded. -/
def isOkResult {ε α : Type} : Except ε α → Bool
  | .ok _ => true
  | .error _ => false

/-- Whether a `conditions` array entry passes its iteration of the And/Or
loop: it must be an object whose recursive `parseCondition` succeeds. -/
def condEntryOk : JSON → Bool
  | .obj o => isOkResult (parseCondition o)
  | _ => false

/-- The error the And/Or loop raises at a failing entry (before the index
wrapper is applied): the non-object error, or the nested parse failure. -/
def condEntryErr : JSON → ParseError
  | .obj o =>
    (match parseCondition o with
    | .error e => e
    | .ok _ => .elementNotObject)
  | _ => .elementNotObject

/-- Whether an error value was produced at the "invalid JSON" wrapping site
of `parseUISchema` (possibly rewrapped by `Parse`), i.e. belongs to the
decode-error taxonomy rather than the structural one. -/
def isDecodeErrorPath : ParseError → Bool
  | .failedUISchema (.invalidJSON _) => true
  | .invalidJSON _ => true
  | _ => false

theorem getObjField_eq_none_of_not_obj {data : JSONObject} {key : String}
    {v : JSON} (h : lookupField data key = some v) (hv : v.isObj = false) :
    getObjField data key = none := by
  unfold getObjField
  rw [h]
  cases v <;> simp_all [JSON.isObj]

theorem getStrField_eq_none_of_not_str {data : JSONObject} {key : String}
    {v : JSON} (h : lookupField data key = some v) (hv : v.isStr = false) :
    getStrField data key = none := by
  unfold getStrField
  rw [h]
  cases v <;> simp_all [JSON.isStr]

/-- Claim C5: for every decoded object whose `type` discriminator is absent
or not a string, node classification fails with the missing-discriminator
error, regardless of any other field's content — in particular before any
base-field (rule/options/i18n) parsing and any type-specific validation. -/
theorem c5_missing_discriminator (data : JSONObject)
    (h : getStrField data "type" = none) :
    parseUISchemaElement data = .error .missingTypeField := by
  simp [parseUISchemaElement, h]

/-- Witness for C5 at a concrete object whose `type` is a number and whose
other fields would otherwise parse. -/
theorem c5_missing_discriminator_witness :
    parseUISchemaElement [("type", JSON.num 7),
      ("scope", JSON.str "#/properties/name")] =
      .error .missingTypeField :=
  c5_missing_discriminator _ rfl

/-- Claim C6: `parseRule` fails with the rule-missing-effect error when
`effect` is absent or not a string; with the rule-missing-condition error
when `condition` is absent or not an object; stores any string `effect`
verbatim with no membership check; and wraps condition-parse failures with
the "failed to parse condition" context. -/
theorem c6_rule_parsing (data : JSONObject) :
    (getStrField data "effect" = none →
      parseRule data = .error .ruleMissingEffect) ∧
    (∀ eff, getStrField data "effect" = some eff →
      getObjField data "condition" = none →
      parseRule data = .error .ruleMissingCondition) ∧
    (∀ eff cond, getStrField data "effect" = some eff →
      getObjField data "condition" = some cond →
      (∀ e, parseCondition cond = .error e →
        parseRule data = .error (.failedCondition e)) ∧
      (∀ c, parseCondition cond = .ok c →
        parseRule data = .ok ⟨eff, c⟩)) :=
  ⟨fun h => by simp [parseRule, h],
   fun eff h1 h2 => by simp [parseRule, h1, h2],
   fun eff cond h1 h2 =>
     ⟨fun e he => by simp [parseRule, h1, h2, he],
      fun c hc => by simp [parseRule, h1, h2, hc]⟩⟩

/-- Witness for C6: a rule whose effect "BLINK" is none of the four known
effects is accepted and stored verbatim, with the parsed leaf condition. -/
theorem c6_rule_parsing_witness :
    parseRule [("effect", JSON.str "BLINK"),
      ("condition", JSON.obj [("type", JSON.str "LEAF"),
        ("scope", JSON.str "#/properties/x"),
        ("expectedValue", JSON.bool true)])] =
      .ok ⟨"BLINK", .leaf "LEAF" "#/properties/x" (JSON.bool true)⟩ :=
  ((c6_rule_parsing [("effect", JSON.str "BLINK"),
      ("condition", JSON.obj [("type", JSON.str "LEAF"),
        ("scope", JSON.str "#/properties/x"),
        ("expectedValue", JSON.bool true)])]).2.2 "BLINK"
    [("type", JSON.str "LEAF"), ("scope", JSON.str "#/properties/x"),
     ("expectedValue", JSON.bool true)] rfl rfl).2
    (.leaf "LEAF" "#/properties/x" (JSON.bool true))
    (by simp [parseCondition, parseLeafCondition, getStrField, lookupField])

/-- Claim C9: a present-but-wrong-typed optional base field is silently
treated as absent.  A non-object `rule` is skipped and base parsing
succeeds outright; a non-object `options` or non-string `i18n` reads as
`none`, and base parsing succeeds whenever the (independent) rule field
itself is absent, skipped, or parses. -/
theorem c9_lenient_base_fields (data : JSONObject) :
    (∀ v, lookupField data "rule" = some v → v.isObj = false →
      parseBaseElement data = .ok ⟨(getStrField data "type").getD "", none,
        getObjField data "options", getStrField data "i18n"⟩) ∧
    (∀ w, lookupField data "options" = some w → w.isObj = false →
      getObjField data "options" = none ∧
      ∀ b, parseBaseElement data = .ok b → b.options = none) ∧
    (∀ u, lookupField data "i18n" = some u → u.isStr = false →
      getStrField data "i18n" = none ∧
      ∀ b, parseBaseElement data = .ok b → b.i18n = none) ∧
    ((∀ r, getObjField data "rule" = some r →
        isOkResult (parseRule r) = true) →
      ∃ b, parseBaseElement data = .ok b) := by
  refine ⟨?_, ?_, ?_, ?_⟩
  · intro v hv hobj
    have h := getObjField_eq_none_of_not_obj hv hobj
    simp [parseBaseElement, h]
  · intro w hw hobj
    have h := getObjField_eq_none_of_not_obj hw hobj
    refine ⟨h, fun b hb => ?_⟩
    unfold parseBaseElement at hb
    split at hb
    · split at hb
      · cases hb
      · cases hb
        simp [h]
    · cases hb
      simp [h]
  · intro u hu hstr
    have h := getStrField_eq_none_of_not_str hu hstr
    refine ⟨h, fun b hb => ?_⟩
    unfold parseBaseElement at hb
    split at hb
    · split at hb
      · cases hb
      · cases hb
        simp [h]
    · cases hb
      simp [h]
  · intro hrule
    unfold parseBaseElement
    split
    next r hr =>
      have := hrule r hr
      cases hp : parseRule r with
      | error e => rw [hp] at this; simp [isOkResult] at this
      | ok rl => simp [hp]
    next => simp

/-- Witness for C9 at an object whose `rule` is a string, `options` a
number and `i18n` a boolean: base parsing succeeds with all three absent. -/
theorem c9_lenient_base_fields_witness :
    parseBaseElement [("rule", JSON.str "x"), ("options", JSON.num 3),
      ("i18n", JSON.bool true)] = .ok ⟨"", none, none, none⟩ :=
  (c9_lenient_base_fields _).1 (JSON.str "x") rfl rfl

/-- Claim C8: for a UI schema that parses, an empty (absent) data-schema
text yields a successful parse whose AST carries no schema value; a
non-empty but malformed data-schema text fails with the data-schema decode
error and no AST. -/
theorem c8_data_schema_handling (ui : JSONText) (u : UISchemaElement)
    (h : parseUISchema ui = .ok u) :
    Parse ui .empty = .ok ⟨u, none⟩ ∧
    Parse ui .invalid = .error (.failedDataSchema .malformedJSON) := by
  constructor <;> simp [Parse, h, goUnmarshalAny]

/-- Witness for C8 at a concrete Label UI schema. -/
theorem c8_data_schema_handling_witness :
    Parse (.valid (.obj [("type", JSON.str "Label"),
        ("text", JSON.str "hi")])) .empty =
      .ok ⟨.label ⟨"Label", none, none, none⟩ "hi", none⟩ ∧
    Parse (.valid (.obj [("type", JSON.str "Label"),
        ("text", JSON.str "hi")])) .invalid =
      .error (.failedDataSchema .malformedJSON) :=
  c8_data_schema_handling _ _
    (by simp [parseUISchema, goUnmarshalMap, parseUISchemaElement,
      parseBaseElement, parseLabel, getStrField, getObjField, lookupField])

/-- Counterexample to claim C10: the UI-schema text `null` is a valid JSON
document whose top-level value is not an object, yet the parse failure is
the structural missing-discriminator error, not an error of the
"invalid JSON" decode path — `json.Unmarshal` stores a JSON null into a
`map[string]any` as a nil map with no error. -/
theorem c10_null_counterexample :
    Parse (.valid .null) .empty =
      .error (.failedUISchema .missingTypeField) ∧
    isDecodeErrorPath (.failedUISchema .missingTypeField) = false := by
  constructor
  · simp [Parse, parseUISchema, goUnmarshalMap, parseUISchemaElement,
      getStrField, lookupField]
  · rfl

/-- Claim C10 as amended: a valid JSON UI-schema text whose top-level value
is an array, string, number or boolean fails through the "invalid JSON"
decode-error path; a top-level null instead decodes (to a nil map) and
fails with the structural missing-discriminator error. -/
theorem c10_top_level_not_object (v : JSON) (s s2 : JSONText)
    (hobj : v.isObj = false) (hnull : v.isNull = false) :
    Parse (.valid v) s =
      .error (.failedUISchema (.invalidJSON .unmarshalTypeErr)) ∧
    isDecodeErrorPath (.failedUISchema (.invalidJSON .unmarshalTypeErr)) =
      true ∧
    Parse (.valid .null) s2 =
      .error (.failedUISchema .missingTypeField) := by
  refine ⟨?_, rfl, ?_⟩
  · cases v <;> simp [JSON.isObj, JSON.isNull] at hobj hnull <;>
      simp [Parse, parseUISchema, goUnmarshalMap]
  · simp [Parse, parseUISchema, goUnmarshalMap, parseUISchemaElement,
      getStrField, lookupField]

/-- Witness for the amended C10 at a top-level array. -/
theorem c10_top_level_not_object_witness :
    Parse (.valid (.arr [])) .empty =
      .error (.failedUISchema (.invalidJSON .unmarshalTypeErr)) :=
  (c10_top_level_not_object (.arr []) .empty .empty rfl rfl).1

theorem parseLeafCondition_isLeaf {data : JSONObject} {c : Condition}
    (h : parseLeafCondition data = .ok c) : c.isLeaf = true := by
  unfold parseLeafCondition at h
  split at h
  next => cases h
  next scope hs =>
    split at h
    next => cases h
    next v hv =>
      cases h
      rfl

theorem parseSchemaBasedCondition_isSchemaBased {data : JSONObject}
    {c : Condition} (h : parseSchemaBasedCondition data = .ok c) :
    c.isSchemaBased = true := by
  unfold parseSchemaBasedCondition at h
  split at h
  next => cases h
  next scope hs =>
    split at h
    next => cases h
    next v hv =>
      cases h
      rfl

theorem parseAndCondition_eq (data : JSONObject) :
    parseAndCondition data =
      match getArrField data "conditions" with
      | some conditionsData =>
        (match parseConditionList conditionsData 0 with
        | .error e => .error e
        | .ok conditions => .ok (.and "AND" conditions))
      | none => .error .andConditionMissingConditions := by
  unfold parseAndCondition
  split
  next conditionsData heq => rw [heq]
  next heq => rw [heq]

theorem parseOrCondition_eq (data : JSONObject) :
    parseOrCondition data =
      match getArrField data "conditions" with
      | some conditionsData =>
        (match parseConditionList conditionsData 0 with
        | .error e => .error e
        | .ok conditions => .ok (.or "OR" conditions))
      | none => .error .orConditionMissingConditions := by
  unfold parseOrCondition
  split
  next conditionsData heq => rw [heq]
  next heq => rw [heq]

theorem parseAndCondition_isAnd {data : JSONObject} {c : Condition}
    (h : parseAndCondition data = .ok c) : c.isAnd = true := by
  rw [parseAndCondition_eq] at h
  cases hA : getArrField data "conditions" with
  | none => simp [hA] at h
  | some l =>
    simp only [hA] at h
    cases hL : parseConditionList l 0 with
    | error e => simp [hL] at h
    | ok cs =>
      simp only [hL] at h
      cases h
      rfl

theorem parseOrCondition_isOr {data : JSONObject} {c : Condition}
    (h : parseOrCondition data = .ok c) : c.isOr = true := by
  rw [parseOrCondition_eq] at h
  cases hA : getArrField data "conditions" with
  | none => simp [hA] at h
  | some l =>
    simp only [hA] at h
    cases hL : parseConditionList l 0 with
    | error e => simp [hL] at h
    | ok cs =>
      simp only [hL] at h
      cases h
      rfl

/-- Claim C3: condition dispatch on the optional `type` field: "LEAF" goes
to the leaf parser (so a success is a LeafCondition), "AND" to the And
parser, "OR" to the Or parser, "SCHEMA_BASED" or an absent/empty `type` to
the schema-based parser (absence is not an error here), and any other string
fails with the unknown-condition-type error naming that value. -/
theorem c3_condition_dispatch (data : JSONObject) :
    ((getStrField data "type").getD "" = "LEAF" →
      parseCondition data = parseLeafCondition data ∧
      ∀ c, parseCondition data = .ok c → c.isLeaf = true) ∧
    ((getStrField data "type").getD "" = "AND" →
      parseCondition data = parseAndCondition data ∧
      ∀ c, parseCondition data = .ok c → c.isAnd = true) ∧
    ((getStrField data "type").getD "" = "OR" →
      parseCondition data = parseOrCondition data ∧
      ∀ c, parseCondition data = .ok c → c.isOr = true) ∧
    (((getStrField data "type").getD "" = "SCHEMA_BASED" ∨
        (getStrField data "type").getD "" = "") →
      parseCondition data = parseSchemaBasedCondition data ∧
      ∀ c, parseCondition data = .ok c → c.isSchemaBased = true) ∧
    (∀ t, (getStrField data "type").getD "" = t →
      t ∉ (["LEAF", "AND", "OR", "SCHEMA_BASED", ""] : List String) →
      parseCondition data = .error (.unknownConditionType t)) := by
  refine ⟨fun h => ?_, fun h => ?_, fun h => ?_, fun h => ?_,
    fun t ht hmem => ?_⟩
  · have heq : parseCondition data = parseLeafCondition data := by
      simp [parseCondition, h]
    exact ⟨heq, fun c hc => parseLeafCondition_isLeaf (heq ▸ hc)⟩
  · have heq : parseCondition data = parseAndCondition data := by
      simp [parseCondition, h]
    exact ⟨heq, fun c hc => parseAndCondition_isAnd (heq ▸ hc)⟩
  · have heq : parseCondition data = parseOrCondition data := by
      simp [parseCondition, h]
    exact ⟨heq, fun c hc => parseOrCondition_isOr (heq ▸ hc)⟩
  · have heq : parseCondition data = parseSchemaBasedCondition data := by
      rcases h with h | h <;> simp [parseCondition, h]
    exact ⟨heq, fun c hc => parseSchemaBasedCondition_isSchemaBased
      (heq ▸ hc)⟩
  · simp only [List.mem_cons, List.not_mem_nil, or_false, not_or] at hmem
    obtain ⟨h1, h2, h3, h4, h5⟩ := hmem
    simp [parseCondition, ht, h1, h2, h3, h4, h5]

/-- Witness for C3 at a condition object with the unrecognized type "XOR". -/
theorem c3_condition_dispatch_witness :
    parseCondition [("type", JSON.str "XOR")] =
      .error (.unknownConditionType "XOR") :=
  (c3_condition_dispatch [("type", JSON.str "XOR")]).2.2.2.2 "XOR" rfl
    (by decide)

theorem parseConditionList_first_failure (items : List JSON) (k i : Nat)
    (hi : i < items.length)
    (hbad : condEntryOk (items.get ⟨i, hi⟩) = false)
    (hgood : ∀ j (hj : j < items.length), j < i →
      condEntryOk (items.get ⟨j, hj⟩) = true) :
    parseConditionList items k =
      .error (.conditionIndexed (k + i)
        (condEntryErr (items.get ⟨i, hi⟩))) := by
  induction items generalizing k i with
  | nil => simp at hi
  | cons item rest ih =>
    cases i with
    | zero =>
      simp only [List.get] at hbad ⊢
      cases item with
      | obj o =>
        cases hp : parseCondition o with
        | ok c => simp [condEntryOk, isOkResult, hp] at hbad
        | error e => simp [parseConditionList, hp, condEntryErr]
      | null => simp [parseConditionList, condEntryErr]
      | bool b => simp [parseConditionList, condEntryErr]
      | num n => simp [parseConditionList, condEntryErr]
      | str s => simp [parseConditionList, condEntryErr]
      | arr l => simp [parseConditionList, condEntryErr]
    | succ n =>
      have hi' : n < rest.length := by
        simp only [List.length_cons] at hi
        omega
      have hhead : condEntryOk item = true := by
        have h0 := hgood 0 (by simp) (by omega)
        simpa only [List.get] using h0
      have hbad' : condEntryOk (rest.get ⟨n, hi'⟩) = false := by
        simpa only [List.get] using hbad
      have hgood' : ∀ j (hj : j < rest.length), j < n →
          condEntryOk (rest.get ⟨j, hj⟩) = true := by
        intro j hj hlt
        have hjlen : j + 1 < (item :: rest).length := by
          simp only [List.length_cons]
          omega
        have hs := hgood (j + 1) hjlen (by omega)
        simpa only [List.get] using hs
      have hrec := ih (k + 1) n hi' hbad' hgood'
      have harith : k + 1 + n = k + (n + 1) := by omega
      rw [harith] at hrec
      cases item with
      | obj o =>
        cases hp : parseCondition o with
        | error e => simp [condEntryOk, isOkResult, hp] at hhead
        | ok c =>
          simp only [List.get]
          simp [parseConditionList, hp, hrec]
      | null => simp [condEntryOk] at hhead
      | bool b => simp [condEntryOk] at hhead
      | num m => simp [condEntryOk] at hhead
      | str s => simp [condEntryOk] at hhead
      | arr l => simp [condEntryOk] at hhead

/-- Claim C4: an And/Or condition whose `conditions` array has a failing
entry (not an object, or an object whose nested parse fails) at the first
failing index `i` fails the entire parse with an error carrying that 0-based
index; no partial AndCondition / OrCondition value is returned. -/
theorem c4_and_or_indexed_failure (data : JSONObject) (l : List JSON)
    (i : Nat) (hl : getArrField data "conditions" = some l)
    (hi : i < l.length)
    (hbad : condEntryOk (l.get ⟨i, hi⟩) = false)
    (hgood : ∀ j (hj : j < l.length), j < i →
      condEntryOk (l.get ⟨j, hj⟩) = true) :
    parseAndCondition data =
      .error (.conditionIndexed i (condEntryErr (l.get ⟨i, hi⟩))) ∧
    parseOrCondition data =
      .error (.conditionIndexed i (condEntryErr (l.get ⟨i, hi⟩))) := by
  have hloop := parseConditionList_first_failure l 0 i hi hbad hgood
  rw [Nat.zero_add] at hloop
  constructor
  · simp [parseAndCondition_eq, hl, hloop]
  · simp [parseOrCondition_eq, hl, hloop]

/-- Witness for C4 at a conditions array whose entry 0 parses and whose
entry 1 is not an object. -/
theorem c4_and_or_indexed_failure_witness :
    parseAndCondition [("conditions", JSON.arr
      [JSON.obj [("type", JSON.str "LEAF"), ("scope", JSON.str "#/a"),
        ("expectedValue", JSON.null)], JSON.str "bad"])] =
      .error (.conditionIndexed 1 .elementNotObject) :=
  (c4_and_or_indexed_failure
    [("conditions", JSON.arr
      [JSON.obj [("type", JSON.str "LEAF"), ("scope", JSON.str "#/a"),
        ("expectedValue", JSON.null)], JSON.str "bad"])]
    [JSON.obj [("type", JSON.str "LEAF"), ("scope", JSON.str "#/a"),
      ("expectedValue", JSON.null)], JSON.str "bad"]
    1 rfl (by decide) rfl
    (fun j hj hlt => by
      have hj0 : j = 0 := by omega
      subst hj0
      simp [condEntryOk, isOkResult, parseCondition, parseLeafCondition,
        getStrField, lookupField])).1

theorem parseCategorization_eq (data : JSONObject)
    (base : BaseUISchemaElement) :
    parseCategorization data base =
      match getArrField data "elements" with
      | some elementsData =>
        (match parseCategorizationList elementsData 0 with
        | .error e => .error e
        | .ok elements =>
          .ok (.categorization base (getStrField data "label") elements))
      | none => .error .categorizationMissingElements := by
  unfold parseCategorization
  split
  next elementsData heq => rw [heq]
  next heq => rw [heq]

theorem parseElementsArray_eq (data : JSONObject) :
    parseElementsArray data =
      match getArrField data "elements" with
      | some elementsData => parseElementsList elementsData 0
      | none => .error .missingElements := by
  unfold parseElementsArray
  split
  next elementsData heq => rw [heq]
  next heq => rw [heq]

/-- The Categorization loop is the plain element loop followed by the
`CategoryElement` filter: same failures at the same indices, and on success
exactly the Category/Categorization entries in their original order. -/
theorem parseCategorizationList_eq_filter (items : List JSON) (i : Nat) :
    parseCategorizationList items i =
      Except.map (List.filter isCategoryElement)
        (parseElementsList items i) := by
  induction items generalizing i with
  | nil => simp [parseCategorizationList, parseElementsList, Except.map]
  | cons item rest ih =>
    cases item with
    | obj elemMap =>
      simp only [parseCategorizationList, parseElementsList]
      cases hp : parseUISchemaElement elemMap with
      | error e => simp [Except.map]
      | ok elem =>
        rw [ih]
        cases hr : parseElementsList rest (i + 1) with
        | error e => simp [Except.map]
        | ok elems =>
          simp only [Except.map, List.filter_cons]
    | null => simp [parseCategorizationList, parseElementsList, Except.map]
    | bool b => simp [parseCategorizationList, parseElementsList, Except.map]
    | num n => simp [parseCategorizationList, parseElementsList, Except.map]
    | str s => simp [parseCategorizationList, parseElementsList, Except.map]
    | arr l => simp [parseCategorizationList, parseElementsList, Except.map]

/-- Claim C1: a Categorization whose `elements` entries all parse (a mix of
Category/Categorization entries and entries of other variants) parses with
no error, and its children are exactly the entries passing the
`CategoryElement` test, in their original relative order; every other
successfully parsed entry is silently excluded. -/
theorem c1_categorization_filters (data : JSONObject)
    (base : BaseUISchemaElement) (elems : List JSON)
    (es : List UISchemaElement)
    (htype : getStrField data "type" = some "Categorization")
    (hbase : parseBaseElement data = .ok base)
    (helems : getArrField data "elements" = some elems)
    (hall : parseElementsList elems 0 = .ok es) :
    parseUISchemaElement data =
      .ok (.categorization base (getStrField data "label")
        (es.filter isCategoryElement)) := by
  have hcat : parseCategorization data base =
      .ok (.categorization base (getStrField data "label")
        (es.filter isCategoryElement)) := by
    rw [parseCategorization_eq]
    simp [helems, parseCategorizationList_eq_filter, hall, Except.map]
  simp [parseUISchemaElement, htype, hbase, hcat]

/-- Witness for C1: a Categorization mixing a Category entry with a Control
entry keeps exactly the Category, with no error. -/
theorem c1_categorization_filters_witness :
    parseUISchemaElement [("type", JSON.str "Categorization"),
      ("elements", JSON.arr
        [JSON.obj [("type", JSON.str "Category"),
          ("label", JSON.str "Basic"), ("elements", JSON.arr [])],
         JSON.obj [("type", JSON.str "Control"),
          ("scope", JSON.str "#/properties/x")]])] =
      .ok (.categorization ⟨"Categorization", none, none, none⟩ none
        [.category ⟨"Category", none, none, none⟩ "Basic" []]) := by
  have h := c1_categorization_filters
    [("type", JSON.str "Categorization"),
     ("elements", JSON.arr
       [JSON.obj [("type", JSON.str "Category"),
         ("label", JSON.str "Basic"), ("elements", JSON.arr [])],
        JSON.obj [("type", JSON.str "Control"),
         ("scope", JSON.str "#/properties/x")]])]
    ⟨"Categorization", none, none, none⟩
    [JSON.obj [("type", JSON.str "Category"), ("label", JSON.str "Basic"),
      ("elements", JSON.arr [])],
     JSON.obj [("type", JSON.str "Control"),
      ("scope", JSON.str "#/properties/x")]]
    [.category ⟨"Category", none, none, none⟩ "Basic" [],
     .control ⟨"Control", none, none, none⟩ "#/properties/x" none]
    rfl rfl rfl
    (by simp [parseElementsList, parseUISchemaElement, parseBaseElement,
      parseCategory, parseControl, parseElementsArray, getStrField,
      getObjField, getArrField, lookupField])
  simpa [List.filter, isCategoryElement] using h

/-- Claim C2: an object with a string discriminator that is none of the
seven dispatch strings, and whose base fields parse, always classifies
successfully as the custom fallback: the raw mapping is the complete
original object unchanged, the type accessor returns the discriminator, and
a failing `elements` child parse still returns the element with no children
rather than an error. -/
theorem c2_custom_fallback (data : JSONObject) (t : String)
    (base : BaseUISchemaElement)
    (htype : getStrField data "type" = some t)
    (hunrec : t ∉ (["Control", "VerticalLayout", "HorizontalLayout",
      "Group", "Categorization", "Category", "Label"] : List String))
    (hbase : parseBaseElement data = .ok base) :
    parseUISchemaElement data = .ok (parseCustomElement data base) ∧
    (parseCustomElement data base).getType = t ∧
    (parseCustomElement data base).rawDataOf = data ∧
    (∀ e, parseElementsArray data = .error e →
      childrenOf (parseCustomElement data base) = []) := by
  simp only [List.mem_cons, List.not_mem_nil, or_false, not_or] at hunrec
  obtain ⟨h1, h2, h3, h4, h5, h6, h7⟩ := hunrec
  have hbt : base.type = t := by
    unfold parseBaseElement at hbase
    split at hbase
    · split at hbase
      · cases hbase
      · cases hbase
        simp [htype]
    · cases hbase
      simp [htype]
  refine ⟨?_, ?_, ?_, ?_⟩
  · simp [parseUISchemaElement, htype, hbase, h1, h2, h3, h4, h5, h6, h7]
  · unfold parseCustomElement
    split
    · cases hpe : parseElementsArray data <;>
        simp [hpe, UISchemaElement.getType, UISchemaElement.baseOf, hbt]
    · simp [UISchemaElement.getType, UISchemaElement.baseOf, hbt]
  · unfold parseCustomElement
    split
    · cases hpe : parseElementsArray data <;>
        simp [hpe, UISchemaElement.rawDataOf]
    · simp [UISchemaElement.rawDataOf]
  · intro e he
    unfold parseCustomElement
    split
    · simp [he, childrenOf]
    · simp [childrenOf]

/-- Witness for C2 at a "Notice" object whose `elements` entry is not an
object (so child parsing fails): classification still succeeds, the type
accessor returns "Notice", the raw data is the original object, and the
children are empty. -/
theorem c2_custom_fallback_witness :
    parseUISchemaElement [("type", JSON.str "Notice"),
      ("elements", JSON.arr [JSON.str "oops"])] =
      .ok (parseCustomElement [("type", JSON.str "Notice"),
        ("elements", JSON.arr [JSON.str "oops"])]
        ⟨"Notice", none, none, none⟩) ∧
    (parseCustomElement [("type", JSON.str "Notice"),
      ("elements", JSON.arr [JSON.str "oops"])]
      ⟨"Notice", none, none, none⟩).getType = "Notice" ∧
    childrenOf (parseCustomElement [("type", JSON.str "Notice"),
      ("elements", JSON.arr [JSON.str "oops"])]
      ⟨"Notice", none, none, none⟩) = [] := by
  have h := c2_custom_fallback
    [("type", JSON.str "Notice"), ("elements", JSON.arr [JSON.str "oops"])]
    "Notice" ⟨"Notice", none, none, none⟩ rfl (by decide) rfl
  exact ⟨h.1, h.2.1, h.2.2.2 (.elementIndexed 0 .elementNotObject)
    (by simp [parseElementsArray, parseElementsList, getArrField,
      lookupField])⟩

theorem walkList_first_failure {ε : Type} (visitor : Visitor ε)
    (l : List UISchemaElement) (i : Nat) (hi : i < l.length) (err : ε)
    (hgood : ∀ j (hj : j < l.length), j < i →
      walkElement visitor (l.get ⟨j, hj⟩) = .ok ())
    (hbad : walkElement visitor (l.get ⟨i, hi⟩) = .error err) :
    walkList visitor l = .error err := by
  induction l generalizing i with
  | nil => simp at hi
  | cons c rest ih =>
    cases i with
    | zero =>
      simp only [List.get] at hbad
      simp [walkList, hbad]
    | succ n =>
      have hc : walkElement visitor c = .ok () := by
        have h0 := hgood 0 (by simp) (by omega)
        simpa only [List.get] using h0
      have hi' : n < rest.length := by
        simp only [List.length_cons] at hi
        omega
      have hbad' : walkElement visitor (rest.get ⟨n, hi'⟩) = .error err := by
        simpa only [List.get] using hbad
      have hgood' : ∀ j (hj : j < rest.length), j < n →
          walkElement visitor (rest.get ⟨j, hj⟩) = .ok () := by
        intro j hj hlt
        have hjlen : j + 1 < (c :: rest).length := by
          simp only [List.length_cons]
          omega
        have hs := hgood (j + 1) hjlen (by omega)
        simpa only [List.get] using hs
      have hrec := ih n hi' hgood' hbad'
      simp [walkList, hc, hrec]

theorem walkList_all_ok {ε : Type} (visitor : Visitor ε)
    (l : List UISchemaElement)
    (hall : ∀ c ∈ l, walkElement visitor c = .ok ()) :
    walkList visitor l = .ok () := by
  induction l with
  | nil => simp [walkList]
  | cons c rest ih =>
    have hc : walkElement visitor c = .ok () := hall c (by simp)
    have hrest := ih (fun x hx => hall x (by simp [hx]))
    simp [walkList, hc, hrest]

/-- Claim C7: the walker is a pre-order depth-first traversal: a nil root is
a no-op success invoking no callback; for every node the variant's own
callback runs first, a callback failure is returned immediately with no
child visited, and on callback success the children are visited in original
sequence order, recursively, short-circuiting at the first failing child
subtree (and succeeding when every child subtree succeeds). -/
theorem c7_walk_preorder (ε : Type) :
    (∀ visitor : Visitor ε, Walk none visitor = .ok ()) ∧
    (∀ (visitor : Visitor ε) (e : UISchemaElement) (err : ε),
      ownCallback visitor e = .error err →
      walkElement visitor e = .error err) ∧
    (∀ (visitor : Visitor ε) (e : UISchemaElement),
      ownCallback visitor e = .ok () →
      walkElement visitor e = walkList visitor (childrenOf e)) ∧
    (∀ (visitor : Visitor ε) (l : List UISchemaElement) (i : Nat)
      (hi : i < l.length) (err : ε),
      (∀ j (hj : j < l.length), j < i →
        walkElement visitor (l.get ⟨j, hj⟩) = .ok ()) →
      walkElement visitor (l.get ⟨i, hi⟩) = .error err →
      walkList visitor l = .error err) ∧
    (∀ (visitor : Visitor ε) (l : List UISchemaElement),
      (∀ c ∈ l, walkElement visitor c = .ok ()) →
      walkList visitor l = .ok ()) := by
  refine ⟨fun visitor => rfl, ?_, ?_,
    fun visitor l i hi err hgood hbad =>
      walkList_first_failure visitor l i hi err hgood hbad,
    fun visitor l hall => walkList_all_ok visitor l hall⟩
  · intro visitor e err h
    cases e <;> simp only [ownCallback] at h <;> simp [walkElement, h]
  · intro visitor e h
    cases e <;> simp only [ownCallback] at h <;>
      simp [walkElement, childrenOf, h, walkList]

/-- A visitor whose Group callback fails (used only by the C7 witness). -/
def failGroupVisitor : Visitor Nat :=
  ⟨fun _ => .ok (), fun _ => .ok (), fun _ => .ok (),
   fun _ => .error 7, fun _ => .ok (), fun _ => .ok (),
   fun _ => .ok (), fun _ => .ok ()⟩

/-- Witness for C7: a nil root is a no-op success, and a failing Group
callback aborts the walk with that failure before any child is visited. -/
theorem c7_walk_preorder_witness :
    Walk none (BaseVisitor Nat) = .ok () ∧
    walkElement failGroupVisitor
      (.group ⟨"Group", none, none, none⟩ "G"
        [.control ⟨"Control", none, none, none⟩ "#/x" none]) =
      .error 7 :=
  ⟨(c7_walk_preorder Nat).1 (BaseVisitor Nat),
   (c7_walk_preorder Nat).2.1 failGroupVisitor
     (.group ⟨"Group", none, none, none⟩ "G"
       [.control ⟨"Control", none, none, none⟩ "#/x" none]) 7 rfl⟩

end Jsonforms
